import Mathlib

/-!
Verification of the tankopedia extraction pipeline
(src/extract_tankopedia.py) against its specification.

The Python source is shallowly embedded: Python dicts become association
lists (`List (String × V)`) with Python's first-match lookup and
replace-in-place-or-append update semantics; Python `str.split(sep)` for a
one-character separator becomes `pySplit`; machine integers are `Nat`
(the ids involved are small non-negative integers, no overflow is
possible at the widths used); code paths that raise an uncaught exception
and terminate the process are modelled with `Except`.
-/

namespace ExtractTankopedia

/-- Python dict lookup on an association list: first binding wins
(a Python dict never holds a duplicate key, so on lists built by
`assocSet` this is exact dict semantics). -/
def assocGet {V : Type} (l : List (String × V)) (k : String) : Option V :=
  match l with
  | [] => none
  | (k', v) :: rest => if k' = k then some v else assocGet rest k

/-- Python dict assignment d[k] = v: replace the value of an existing
binding in place, otherwise append the new binding at the end
(insertion-order semantics of Python 3.7+ dicts). -/
def assocSet {V : Type} (l : List (String × V)) (k : String) (v : V) :
    List (String × V) :=
  match l with
  | [] => [(k, v)]
  | (k', v') :: rest =>
    if k' = k then (k', v) :: rest else (k', v') :: assocSet rest k v

/-- Python dict.update: fold every binding of the new dict into the prior
dict with assignment semantics.  Embeds the merge steps
tanks.update(new_tanks), userStrs.update(new_userStrs) and
maps.update(map_strs) of main (src/extract_tankopedia.py lines 84-85, 104). -/
def dictUpdate {V : Type} (prior new : List (String × V)) :
    List (String × V) :=
  new.foldl (fun acc kv => assocSet acc kv.1 kv.2) prior

/-- Splitting a list of characters at every occurrence of the separator
character; the result always has one more piece than there are separator
occurrences, so it is never empty. -/
def splitChar (c : Char) : List Char → List (List Char)
  | [] => [[]]
  | x :: xs =>
    match splitChar c xs with
    | [] => [[]]
    | g :: gs => if x = c then [] :: g :: gs else (x :: g) :: gs

/-- Python s.split(c) for a single-character separator (agrees with
Lean's String.splitOn for these inputs); defined via character lists so
that concrete instances reduce inside the kernel. -/
def pySplit (c : Char) (s : String) : List String :=
  (splitChar c s.data).map (fun l => String.mk l)

/-- Whether the first character list is an initial segment of the
second. -/
def leadsChars : List Char → List Char → Bool
  | [], _ => true
  | _ :: _, [] => false
  | c :: cs, d :: ds => c = d && leadsChars cs ds

/-- String startsWith, computed on the character lists so that concrete
instances reduce inside the kernel (String.startsWith itself is an
opaque runtime loop). -/
def strStarts (s pre : String) : Bool :=
  leadsChars pre.data s.data

/-- Decidable equality for Except, needed to evaluate the embedded
fallible functions at concrete inputs. -/
instance exceptDecEq {ε α : Type} [DecidableEq ε] [DecidableEq α] :
    DecidableEq (Except ε α) := fun x y =>
  match x, y with
  | Except.ok a, Except.ok b =>
    if h : a = b then isTrue (by rw [h])
    else isFalse (fun hc => h (Except.ok.inj hc))
  | Except.error a, Except.error b =>
    if h : a = b then isTrue (by rw [h])
    else isFalse (fun hc => h (Except.error.inj hc))
  | Except.ok _, Except.error _ => isFalse (fun hc => Except.noConfusion hc)
  | Except.error _, Except.ok _ => isFalse (fun hc => Except.noConfusion hc)

/-- The id encoder get_tank_id (src/extract_tankopedia.py lines 224-226):
(tank_id << 8) + (nation_id << 4) + 1.  The source looks the nation
index up in the external wg.NATION_ID table (module blitzutils, outside
src/); the encoder is parameterized by that looked-up index, which the
spec constrains to 0..15. -/
def get_tank_id (nation_id : Nat) (tank_id : Nat) : Nat :=
  (tank_id <<< 8) + (nation_id <<< 4) + 1

/-- The classifier get_tank_type (src/extract_tankopedia.py lines
229-235): split the tag string on spaces, compare the first token against
each known type tag in order, return the first match or none.  The
known-type table wg.TANK_TYPE lives in the external blitzutils module, so
the classifier is parameterized by it. -/
def get_tank_type (tankTypes : List String) (tagstr : String) :
    Option String :=
  match pySplit ' ' tagstr with
  | [] => none
  | t0 :: _ => tankTypes.find? (fun ty => t0 = ty)

/-- A vehicle record dict as built by extract_tanks and mutated by
convert_tank_names.  userStr and name are optional because the
source adds and removes these dict keys during name resolution. -/
structure Tank where
  is_premium : Bool
  nation : String
  tank_id : Nat
  tier : Nat
  type : Option String
  userStr : Option String
  name : Option String
  deriving DecidableEq, Repr

/-- The fields extract_tanks reads from one parsed XML vehicle entry
(price's dict-ness, id, level, tags, userString); entries whose fields
are missing or malformed take the fatal sys.exit(2) path of lines
136-138, which no claim exercises, so the embedding takes well-formed
entries. -/
structure XmlVehicle where
  price_is_dict : Bool
  id : Nat
  level : Nat
  tags : String
  userString : String
  deriving DecidableEq, Repr

/-- extract_tanks (src/extract_tankopedia.py lines 111-139) for one
nation.  The file-system input is `none` when the nation's list.xml is
absent; in that case the source prints an error and returns Python None
(line 120), embedded as `none`; a present file yields `some` of the raw
record list. -/
def extract_tanks (tankTypes : List String) (nation : String)
    (nation_id : Nat) (file : Option (List (String × XmlVehicle))) :
    Option (List Tank) :=
  match file with
  | none => none
  | some entries =>
    some (entries.map fun e =>
      { is_premium := e.2.price_is_dict
        nation := nation
        tank_id := get_tank_id nation_id e.2.id
        tier := e.2.level
        type := get_tank_type tankTypes e.2.tags
        userStr := some e.2.userString
        name := none })

/-- The collection loop of main (src/extract_tankopedia.py lines 63-65):
tanklist.extend(tanklist_tmp) over the gathered per-nation results.
Python list.extend raises TypeError when handed None, which aborts the
run; that is the `Except.error` case. -/
def main_gather : List (Option (List Tank)) → Except String (List Tank)
  | [] => Except.ok []
  | some l :: rest =>
    match main_gather rest with
    | Except.ok acc => Except.ok (l ++ acc)
    | Except.error e => Except.error e
  | none :: _ => Except.error "TypeError: NoneType object is not iterable"

/-- Body of the per-record loop of convert_tank_names
(src/extract_tankopedia.py lines 178-190), made a pure function: returns
the record after the source's in-place mutations together with the
optional tankopedia insertion str(tank_id) -> record.  The three `none`
insertion cases are the per-record `except` path (KeyError when userStr
is absent, IndexError when the fallback split has no index 1); there the
dict is left untouched and nothing is inserted. -/
def convertStep (tank_strs : List (String × String)) (tank : Tank) :
    Tank × Option (String × Tank) :=
  match tank.userStr with
  | none => (tank, none)
  | some u =>
    match assocGet tank_strs u with
    | some txt =>
      let t := { tank with name := some txt, userStr := none }
      (t, some (toString t.tank_id, t))
    | none =>
      match (pySplit ':' u)[1]? with
      | some seg =>
        let t := { tank with name := some seg, userStr := none }
        (t, some (toString t.tank_id, t))
      | none => (tank, none)

/-- The post-loop state of one input record (the source mutates the
caller's dicts in place). -/
def tankMutate (tank_strs : List (String × String)) (tank : Tank) : Tank :=
  (convertStep tank_strs tank).1

/-- The tankopedia contribution of one input record, if its name
resolution succeeds. -/
def tankStep (tank_strs : List (String × String)) (tank : Tank) :
    Option (String × Tank) :=
  (convertStep tank_strs tank).2

/-- One iteration of the tankopedia-building loop: skip the record when
its step yields nothing, otherwise assign it into the accumulator
dict. -/
def pediaStep (tank_strs : List (String × String))
    (acc : List (String × Tank)) (t : Tank) : List (String × Tank) :=
  match tankStep tank_strs t with
  | none => acc
  | some (k, r) => assocSet acc k r

/-- The tankopedia dict built by the first loop of convert_tank_names
(src/extract_tankopedia.py lines 177-190): records whose step fails are
skipped, successful ones are assigned under their stringified id. -/
def convertPedia (tank_strs : List (String × String)) (ts : List Tank) :
    List (String × Tank) :=
  ts.foldl (pediaStep tank_strs) []

/-- The exclusion test of the userStr filter loop
(src/extract_tankopedia.py lines 196-201).  The source runs re.match
with the patterns ^Chassis_, ^Turret_, ^_ and _short$; re.match anchors
at the start of the string, so the three ^-patterns are startsWith
tests, while _short$ only matches when the whole key is the literal
_short (or _short followed by the final newline that $ tolerates) — it
is NOT a suffix test under match semantics. -/
def skip_tank_str (key : String) : Bool :=
  strStarts key "Chassis_" || strStarts key "Turret_" ||
    strStarts key "_" ||
    (key = "_short" || key = "_short\n")

/-- The userStr filter loop of convert_tank_names
(src/extract_tankopedia.py lines 192-205): for each vehicleStrings key,
take the second colon segment as short key; a key with no colon raises
IndexError, which escapes to the outer handler and exits the process
(Except.error); otherwise keep the entry unless the skip patterns
match. -/
def build_userStrsGo (acc : List (String × String)) :
    List (String × String) → Except String (List (String × String))
  | [] => Except.ok acc
  | (k, v) :: rest =>
    match (pySplit ':' k)[1]? with
    | none => Except.error "IndexError: list index out of range"
    | some key =>
      if skip_tank_str key then build_userStrsGo acc rest
      else build_userStrsGo (assocSet acc key v) rest

/-- The userStr filter loop started from an empty accumulator dict. -/
def build_userStrs (tank_strs : List (String × String)) :
    Except String (List (String × String)) :=
  build_userStrsGo [] tank_strs

/-- Stable insertion of an element into a list ordered by the key
function f (new element goes after existing equal keys, as Python's
stable sort does). -/
def insertOn {α β : Type} [LinearOrder β] (f : α → β) (x : α) :
    List α → List α
  | [] => [x]
  | y :: ys => if f x < f y then x :: y :: ys else y :: insertOn f x ys

/-- Stable sort by a key function; models Python sorted(xs, key=f). -/
def sortOn {α β : Type} [LinearOrder β] (f : α → β) : List α → List α
  | [] => []
  | x :: xs => insertOn f x (sortOn f xs)

/-- Python int() on the decimal key strings the catalogs use; modelled
for canonical non-negative decimal digit strings, with 0 as the value of
a string int() would reject (the theorems about sorting only ever assume
keys whose parses are pairwise distinct, so the junk value never
matters). -/
def pyInt (s : String) : Nat :=
  s.data.foldl
    (fun acc c => if c.isDigit then acc * 10 + (c.toNat - 48) else acc) 0

/-- The result of convert_tank_names: the two sorted mappings the source
returns, plus the post-call state of the caller's record list (the
source mutates those dicts in place; the shallow embedding returns the
mutated list explicitly). -/
structure ConvertResult where
  tankopedia : List (String × Tank)
  userStrs : List (String × String)
  mutated : List Tank
  deriving DecidableEq

/-- convert_tank_names (src/extract_tankopedia.py lines 167-221): run
the per-record loop, build the filtered userStrs view, sort the
tankopedia keys numerically (sorted(keys, key=int)) and the userStrs
keys lexicographically.  Except.error is the outer try/except path that
exits the process. -/
def convert_tank_names (tanklist : List Tank)
    (tank_strs : List (String × String)) : Except String ConvertResult :=
  match build_userStrs tank_strs with
  | Except.error e => Except.error e
  | Except.ok us =>
    Except.ok
      { tankopedia := sortOn (fun p => pyInt p.1) (convertPedia tank_strs tanklist)
        userStrs := sortOn (fun p => p.1) us
        mutated := tanklist.map (tankMutate tank_strs) }

/-- The line loop of read_user_strs (src/extract_tankopedia.py lines
152-159), parameterized by the two compiled regular expressions p_tank
and p_map of lines 149-150 as match functions line -> optional
(group 1, group 2) pair (the regex engine is Python's external re
module).  A p_tank match is stored in tank_strs; a p_map match is stored
in map_strs unless its text group equals the literal Macragge.  This is
the p_tank half: a matching line is stored into tank_strs. -/
def readTankStep (pTank : String → Option (String × String))
    (acc : List (String × String) × List (String × String)) (l : String) :
    List (String × String) × List (String × String) :=
  match pTank l with
  | some (k, v) => (assocSet acc.1 k v, acc.2)
  | none => acc

/-- The p_map half of the line loop (src/extract_tankopedia.py lines
157-159): a matching line is stored into map_strs unless its text group
equals the literal Macragge. -/
def readMapStep (pMap : String → Option (String × String))
    (acc : List (String × String) × List (String × String)) (l : String) :
    List (String × String) × List (String × String) :=
  match pMap l with
  | some (k, v) =>
    if v = "Macragge" then acc else (acc.1, assocSet acc.2 k v)
  | none => acc

/-- One full line of the loop: the p_tank match is tried first, then the
p_map match, exactly as in lines 152-159. -/
def readStep (pTank pMap : String → Option (String × String))
    (acc : List (String × String) × List (String × String)) (l : String) :
    List (String × String) × List (String × String) :=
  readMapStep pMap (readTankStep pTank acc l) l

/-- read_user_strs over the list of localization lines
(src/extract_tankopedia.py lines 141-165): fold the per-line step from
two empty tables. -/
def read_user_strs (pTank pMap : String → Option (String × String))
    (lines : List String) :
    List (String × String) × List (String × String) :=
  lines.foldl (readStep pTank pMap) ([], [])

/-- Modelled from the spec: bu.sort_dict(d, number=True) from the
blitzutils module, which is part of this repository but absent from
src/.  Per spec section 4.6 the persisted tankopedia data keys get
deterministic numeric ordering; modelled as a stable sort of the
bindings by the integer value of the key. -/
def sort_dict_number {V : Type} (d : List (String × V)) :
    List (String × V) :=
  sortOn (fun p => pyInt p.1) d

/-- Modelled from the spec: bu.sort_dict(d) from the blitzutils module
(absent from src/), and equally the key ordering json.dumps applies to
the maps catalog under sort_keys=True: lexicographic ordering of the
keys. -/
def sort_dict {V : Type} (d : List (String × V)) : List (String × V) :=
  sortOn (fun p => p.1) d

/-- The serialized key sequences of main's two output files
(src/extract_tankopedia.py lines 81-107): the tankopedia data field is
the numeric sort of the prior-merged-with-new tanks dict, userStr is the
lexicographic sort of the merged user strings, and the maps file is the
merged maps dict as ordered by json.dumps sort_keys=True. -/
def main_outputs {V : Type} (tanks new_tanks : List (String × Tank))
    (userStrs new_userStrs : List (String × String))
    (maps map_strs : List (String × V)) :
    List (String × Tank) × List (String × String) × List (String × V) :=
  (sort_dict_number (dictUpdate tanks new_tanks),
   sort_dict (dictUpdate userStrs new_userStrs),
   sort_dict (dictUpdate maps map_strs))

/-- A sample raw record, as extract_tanks would build it, used to
evaluate the claims at concrete inputs. -/
def sampleT34 : Tank :=
  { is_premium := false
    nation := "ussr"
    tank_id := 1
    tier := 5
    type := some "lightTank"
    userStr := some "#tank_vehicles:T34"
    name := none }

/-- The sample record after name resolution against an empty string
table: the fallback takes the second colon segment T34, the userStr key
is gone. -/
def sampleT34Done : Tank :=
  { is_premium := false
    nation := "ussr"
    tank_id := 1
    tier := 5
    type := some "lightTank"
    userStr := none
    name := some "T34" }

/-- A sample raw record whose display key holds no colon, so its
fallback name derivation fails with IndexError. -/
def sampleBad : Tank :=
  { is_premium := false
    nation := "ussr"
    tank_id := 2
    tier := 5
    type := none
    userStr := some "badkey"
    name := none }

/-! Helper lemmas about the dict embedding. -/

theorem assocGet_set_self {V : Type} (l : List (String × V)) (k : String)
    (v : V) : assocGet (assocSet l k v) k = some v := by
  induction l with
  | nil => simp [assocGet, assocSet]
  | cons hd tl ih =>
    obtain ⟨k', v'⟩ := hd
    by_cases h : k' = k <;> simp [assocGet, assocSet, h, ih]

theorem assocGet_set_ne {V : Type} (l : List (String × V)) (k k' : String)
    (v : V) (h : k' ≠ k) :
    assocGet (assocSet l k v) k' = assocGet l k' := by
  induction l with
  | nil => simp [assocGet, assocSet, Ne.symm h]
  | cons hd tl ih =>
    obtain ⟨k0, v0⟩ := hd
    by_cases h0 : k0 = k
    · subst h0
      simp [assocGet, assocSet, Ne.symm h]
    · simp only [assocSet, if_neg h0, assocGet]
      by_cases h1 : k0 = k' <;> simp [h1, ih]

theorem assocGet_eq_none {V : Type} (l : List (String × V)) (k : String) :
    assocGet l k = none ↔ k ∉ l.map Prod.fst := by
  induction l with
  | nil => simp [assocGet]
  | cons hd tl ih =>
    obtain ⟨k', v'⟩ := hd
    simp only [assocGet, List.map_cons, List.mem_cons]
    by_cases h : k' = k
    · simp [h]
    · simp [h, Ne.symm h, ih]

theorem mem_assocSet {V : Type} (l : List (String × V)) (k : String)
    (v : V) (p : String × V) (hp : p ∈ assocSet l k v) :
    p ∈ l ∨ p.2 = v := by
  induction l with
  | nil =>
    simp only [assocSet, List.mem_singleton] at hp
    exact Or.inr (by rw [hp])
  | cons hd tl ih =>
    obtain ⟨k0, v0⟩ := hd
    simp only [assocSet] at hp
    by_cases h0 : k0 = k
    · rw [if_pos h0] at hp
      rcases List.mem_cons.mp hp with hp | hp
      · exact Or.inr (by rw [hp])
      · exact Or.inl (List.mem_cons_of_mem _ hp)
    · rw [if_neg h0] at hp
      rcases List.mem_cons.mp hp with hp | hp
      · exact Or.inl (by rw [hp]; exact List.mem_cons_self _ _)
      · rcases ih hp with h | h
        · exact Or.inl (List.mem_cons_of_mem _ h)
        · exact Or.inr h

theorem assocGet_set_isSome {V : Type} (l : List (String × V))
    (k : String) (v : V) : (assocGet (assocSet l k v) k).isSome := by
  rw [assocGet_set_self]; rfl

theorem assocGet_set_isSome_mono {V : Type} (l : List (String × V))
    (k k' : String) (v : V) (h : (assocGet l k').isSome) :
    (assocGet (assocSet l k v) k').isSome := by
  by_cases hk : k' = k
  · subst hk; rw [assocGet_set_self]; rfl
  · rw [assocGet_set_ne l k k' v hk]; exact h

theorem dictUpdate_get_not_mem {V : Type} (p new : List (String × V))
    (k : String) (h : k ∉ new.map Prod.fst) :
    assocGet (dictUpdate p new) k = assocGet p k := by
  induction new generalizing p with
  | nil => rfl
  | cons hd tl ih =>
    obtain ⟨k0, v0⟩ := hd
    simp only [List.map_cons, List.mem_cons] at h
    push_neg at h
    show assocGet (dictUpdate (assocSet p k0 v0) tl) k = assocGet p k
    rw [ih _ h.2, assocGet_set_ne _ _ _ _ h.1]

theorem dictUpdate_get_mem {V : Type} (p new : List (String × V))
    (k : String) (v : V) (hnd : (new.map Prod.fst).Nodup)
    (h : assocGet new k = some v) :
    assocGet (dictUpdate p new) k = some v := by
  induction new generalizing p with
  | nil => simp [assocGet] at h
  | cons hd tl ih =>
    obtain ⟨k0, v0⟩ := hd
    simp only [List.map_cons, List.nodup_cons] at hnd
    by_cases h0 : k0 = k
    · subst h0
      simp [assocGet] at h
      subst h
      show assocGet (dictUpdate (assocSet p k0 v0) tl) k0 = some v0
      rw [dictUpdate_get_not_mem _ _ _ hnd.1, assocGet_set_self]
    · simp only [assocGet, if_neg h0] at h
      exact ih _ hnd.2 h

/-! Helper lemmas about the stable key sort. -/

theorem insertOn_perm {α β : Type} [LinearOrder β] (f : α → β) (x : α)
    (l : List α) : (insertOn f x l).Perm (x :: l) := by
  induction l with
  | nil => simp [insertOn]
  | cons y ys ih =>
    by_cases h : f x < f y
    · simp [insertOn, h]
    · simp only [insertOn, if_neg h]
      exact (ih.cons y).trans (List.Perm.swap x y ys)

theorem sortOn_perm {α β : Type} [LinearOrder β] (f : α → β)
    (l : List α) : (sortOn f l).Perm l := by
  induction l with
  | nil => simp [sortOn]
  | cons x xs ih =>
    exact (insertOn_perm f x (sortOn f xs)).trans (ih.cons x)

theorem insertOn_pairwise {α β : Type} [LinearOrder β] (f : α → β)
    (x : α) (l : List α) (h : l.Pairwise (fun a b => f a ≤ f b)) :
    (insertOn f x l).Pairwise (fun a b => f a ≤ f b) := by
  induction l with
  | nil => simp [insertOn]
  | cons y ys ih =>
    rcases List.pairwise_cons.mp h with ⟨hy, hys⟩
    by_cases hlt : f x < f y
    · simp only [insertOn, if_pos hlt]
      refine List.pairwise_cons.mpr ⟨?_, h⟩
      intro z hz
      rcases List.mem_cons.mp hz with hz | hz
      · subst hz; exact le_of_lt hlt
      · exact le_trans (le_of_lt hlt) (hy z hz)
    · simp only [insertOn, if_neg hlt]
      refine List.pairwise_cons.mpr ⟨?_, ih hys⟩
      intro z hz
      have hz' : z ∈ x :: ys := (insertOn_perm f x ys).mem_iff.mp hz
      rcases List.mem_cons.mp hz' with hz' | hz'
      · subst hz'; exact le_of_not_lt hlt
      · exact hy z hz'

theorem sortOn_pairwise {α β : Type} [LinearOrder β] (f : α → β)
    (l : List α) : (sortOn f l).Pairwise (fun a b => f a ≤ f b) := by
  induction l with
  | nil => simp [sortOn]
  | cons x xs ih => exact insertOn_pairwise f x _ ih

/-- Any list whose f-images are pairwise distinct is sorted strictly by
f after sortOn. -/
theorem sortOn_pairwise_lt {α β : Type} [LinearOrder β] (f : α → β)
    (l : List α) (h : (l.map f).Nodup) :
    ((sortOn f l).map f).Pairwise (· < ·) := by
  have hperm : ((sortOn f l).map f).Perm (l.map f) :=
    (sortOn_perm f l).map f
  have hnd : ((sortOn f l).map f).Nodup := hperm.nodup_iff.mpr h
  have hle : ((sortOn f l).map f).Pairwise (· ≤ ·) :=
    List.pairwise_map.mpr (sortOn_pairwise f l)
  have := hle.and hnd
  exact this.imp (fun hab => lt_of_le_of_ne hab.1 hab.2)

/-! Helper lemmas about pySplit, the tankopedia loop and the
localization-line loop. -/

theorem splitChar_ne_nil (c : Char) (l : List Char) :
    splitChar c l ≠ [] := by
  cases l with
  | nil => simp [splitChar]
  | cons x xs =>
    simp only [splitChar]
    cases splitChar c xs with
    | nil => simp
    | cons g gs => by_cases hx : x = c <;> simp [hx]

theorem one_lt_splitChar_length (c : Char) (l : List Char) (h : c ∈ l) :
    1 < (splitChar c l).length := by
  induction l with
  | nil => simp at h
  | cons x xs ih =>
    cases hs : splitChar c xs with
    | nil => exact absurd hs (splitChar_ne_nil c xs)
    | cons g gs =>
      have hred : splitChar c (x :: xs) =
          if x = c then [] :: g :: gs else (x :: g) :: gs := by
        simp only [splitChar, hs]
      rw [hred]
      by_cases hx : x = c
      · simp [hx]
      · have hmem : c ∈ xs := by
          rcases List.mem_cons.mp h with h | h
          · exact absurd h.symm hx
          · exact h
        have h2 := ih hmem
        rw [hs] at h2
        simp only [if_neg hx, List.length_cons] at h2 ⊢
        omega

theorem pedia_foldl_filter (tank_strs : List (String × String))
    (ts : List Tank) (acc : List (String × Tank)) :
    ts.foldl (pediaStep tank_strs) acc =
      (ts.filter (fun t => (tankStep tank_strs t).isSome)).foldl
        (pediaStep tank_strs) acc := by
  induction ts generalizing acc with
  | nil => rfl
  | cons t tl ih =>
    simp only [List.foldl_cons, List.filter_cons]
    cases hs : tankStep tank_strs t with
    | none =>
      simp only [hs, Option.isSome_none, Bool.false_eq_true, if_false]
      rw [show pediaStep tank_strs acc t = acc from by simp [pediaStep, hs]]
      exact ih _
    | some kv =>
      simp only [hs, Option.isSome_some, if_true]
      rw [List.foldl_cons]
      exact ih _

theorem pedia_foldl_isSome (tank_strs : List (String × String))
    (ts : List Tank) (acc : List (String × Tank)) (k : String)
    (h : (assocGet acc k).isSome = true) :
    (assocGet (ts.foldl (pediaStep tank_strs) acc) k).isSome = true := by
  induction ts generalizing acc with
  | nil => exact h
  | cons t tl ih =>
    rw [List.foldl_cons]
    apply ih
    cases hs : tankStep tank_strs t with
    | none => simpa [pediaStep, hs] using h
    | some kv =>
      obtain ⟨k0, r⟩ := kv
      simpa [pediaStep, hs] using
        assocGet_set_isSome_mono acc k0 k r h

theorem pedia_foldl_mem (tank_strs : List (String × String)) (t : Tank)
    (k : String) (r : Tank) (hs : tankStep tank_strs t = some (k, r)) :
    ∀ (ts : List Tank) (acc : List (String × Tank)), t ∈ ts →
      (assocGet (ts.foldl (pediaStep tank_strs) acc) k).isSome = true := by
  intro ts
  induction ts with
  | nil =>
    intro acc ht
    simp at ht
  | cons hd tl ih =>
    intro acc ht
    rw [List.foldl_cons]
    rcases List.mem_cons.mp ht with hh | hh
    · subst hh
      apply pedia_foldl_isSome
      simp only [pediaStep, hs]
      exact assocGet_set_isSome acc k r
    · exact ih _ hh

theorem readTankStep_snd (pTank : String → Option (String × String))
    (acc : List (String × String) × List (String × String))
    (l : String) : (readTankStep pTank acc l).2 = acc.2 := by
  rcases hpt : pTank l with _ | ⟨k, v⟩ <;> simp [readTankStep, hpt]

theorem readStep_inv (pTank pMap : String → Option (String × String))
    (acc : List (String × String) × List (String × String)) (l : String)
    (hacc : ∀ kv ∈ acc.2, kv.2 ≠ "Macragge") :
    ∀ kv ∈ (readStep pTank pMap acc l).2, kv.2 ≠ "Macragge" := by
  intro kv hkv
  have h2 := readTankStep_snd pTank acc l
  simp only [readStep] at hkv
  rcases hpm : pMap l with _ | ⟨k, v⟩
  · simp only [readMapStep, hpm] at hkv
    rw [h2] at hkv
    exact hacc kv hkv
  · simp only [readMapStep, hpm] at hkv
    by_cases hv : v = "Macragge"
    · rw [if_pos hv] at hkv
      rw [h2] at hkv
      exact hacc kv hkv
    · rw [if_neg hv] at hkv
      simp only at hkv
      rw [h2] at hkv
      rcases mem_assocSet _ _ _ _ hkv with h | h
      · exact hacc kv h
      · rw [h]; exact hv

theorem readStep_foldl_inv (pTank pMap : String → Option (String × String))
    (lines : List String)
    (acc : List (String × String) × List (String × String))
    (hacc : ∀ kv ∈ acc.2, kv.2 ≠ "Macragge") :
    ∀ kv ∈ (lines.foldl (readStep pTank pMap) acc).2,
      kv.2 ≠ "Macragge" := by
  induction lines generalizing acc with
  | nil => exact hacc
  | cons l ls ih =>
    rw [List.foldl_cons]
    exact ih _ (readStep_inv pTank pMap acc l hacc)

end ExtractTankopedia

namespace ExtractTankopedia

/-- C4: the claim asserts get_tank_id at nation index 2 and raw id 100
returns 25665; the source formula yields 100*256 + 2*16 + 1 = 25633, so
the claim's worked example is wrong. -/
theorem get_tank_id_example_25665_false :
    get_tank_id 2 100 ≠ 25665 := by decide

/-- C4 (amended): the identifier encoder applied to nation_index = 2 and
raw_id = 100 returns 25633 = (100 <<< 8) + (2 <<< 4) + 1. -/
theorem get_tank_id_example : get_tank_id 2 100 = 25633 := by decide

/-- C7: the identifier encoder is injective for nation indices in 0..15
and arbitrary non-negative raw ids: equal encodings force equal pairs. -/
theorem get_tank_id_injective (n1 n2 r1 r2 : Nat)
    (h1 : n1 < 16) (h2 : n2 < 16)
    (h : get_tank_id n1 r1 = get_tank_id n2 r2) : n1 = n2 ∧ r1 = r2 := by
  simp only [get_tank_id, Nat.shiftLeft_eq] at h
  omega

/-- C7 witness: the injectivity theorem applied at the concrete pair
(nation 2, raw id 100) against itself. -/
theorem get_tank_id_injective_witness : 2 = 2 ∧ 100 = 100 :=
  get_tank_id_injective 2 2 100 100 (by decide) (by decide) (by decide)

/-- C1: catalog merge is a shallow key-wise overlay: for every prior map
and new map (the new map having the distinct keys every Python dict
has), a key bound in the new map ends up bound to its new value, and a
key absent from the new map keeps its prior binding. -/
theorem dictUpdate_overlay {V : Type} (prior new : List (String × V))
    (hnd : (new.map Prod.fst).Nodup) (k : String) :
    (∀ v, assocGet new k = some v →
      assocGet (dictUpdate prior new) k = some v) ∧
    (assocGet new k = none →
      assocGet (dictUpdate prior new) k = assocGet prior k) := by
  constructor
  · intro v hv
    exact dictUpdate_get_mem prior new k v hnd hv
  · intro hv
    exact dictUpdate_get_not_mem prior new k ((assocGet_eq_none new k).mp hv)

/-- C1 witness: the overlay theorem applied to the spec's example, prior
1 maps to A and 2 maps to B, new 2 maps to B2 and 3 maps to C: key 2 is
replaced, key 1 survives, key 3 is added. -/
theorem dictUpdate_overlay_witness :
    assocGet (dictUpdate [("1", "A"), ("2", "B")]
      [("2", "B2"), ("3", "C")]) "2" = some "B2" ∧
    assocGet (dictUpdate [("1", "A"), ("2", "B")]
      [("2", "B2"), ("3", "C")]) "1" = some "A" ∧
    assocGet (dictUpdate [("1", "A"), ("2", "B")]
      [("2", "B2"), ("3", "C")]) "3" = some "C" :=
  ⟨(dictUpdate_overlay [("1", "A"), ("2", "B")] [("2", "B2"), ("3", "C")]
      (by decide) "2").1 "B2" (by decide),
   ((dictUpdate_overlay [("1", "A"), ("2", "B")] [("2", "B2"), ("3", "C")]
      (by decide) "1").2 (by decide)).trans (by decide),
   (dictUpdate_overlay [("1", "A"), ("2", "B")] [("2", "B2"), ("3", "C")]
      (by decide) "3").1 "C" (by decide)⟩

/-- C2: the claim says a nation with a missing vehicle file yields an
empty record sequence and the concatenation over all nations still
succeeds with the present nations' records.  In the source,
extract_tanks returns Python None for a missing file (line 120) and
main's tanklist.extend then raises TypeError, aborting the whole run:
evaluated here with the ussr file present and the germany file absent,
the collection step errors instead of returning the ussr records. -/
theorem extract_missing_file_aborts_run :
    extract_tanks ["lightTank"] "germany" 1 none = none ∧
    main_gather
      [extract_tanks ["lightTank"] "ussr" 0
        (some [("R01_Tank",
          { price_is_dict := false
            id := 1
            level := 5
            tags := "lightTank extra"
            userString := "#ussr_vehicles:T34" })]),
       extract_tanks ["lightTank"] "germany" 1 none] =
      Except.error "TypeError: NoneType object is not iterable" := by
  constructor
  · rfl
  · rfl

/-- C3: the claim says a short key ending in _short is excluded from
userStrings.  The source tests its exclusion patterns with re.match,
which anchors at the start of the key, so the pattern _short-dollar
never acts as a suffix test: the key Something_short is retained.  The
other three exclusions (Chassis_, Turret_ and _ as leading patterns) and
the retention of Foo do hold. -/
theorem userStrs_retains_short_suffix_key :
    build_userStrs [("#tank_vehicles:Something_short", "Foo tank")] =
      Except.ok [("Something_short", "Foo tank")] ∧
    skip_tank_str "Something_short" = false ∧
    skip_tank_str "Chassis_Foo" = true ∧
    skip_tank_str "Turret_Bar" = true ∧
    skip_tank_str "_Baz" = true ∧
    skip_tank_str "Foo" = false := by
  refine ⟨rfl, ?_, ?_, ?_, ?_, ?_⟩ <;> decide

/-- C5: name resolution: when the record's display key is bound in
vehicleStrings the resolved name is the bound text; when it is unbound
and contains at least one colon, the resolved name is the second
colon-separated segment (index 1) of the key. -/
theorem name_resolution (tank_strs : List (String × String)) (t : Tank)
    (u : String) (hu : t.userStr = some u) :
    (∀ txt, assocGet tank_strs u = some txt →
      ((convertStep tank_strs t).1).name = some txt) ∧
    (assocGet tank_strs u = none → ':' ∈ u.data →
      ((convertStep tank_strs t).1).name = (pySplit ':' u)[1]?) := by
  constructor
  · intro txt htxt
    simp [convertStep, hu, htxt]
  · intro hn hc
    have hlen : 1 < (pySplit ':' u).length := by
      simpa [pySplit] using one_lt_splitChar_length ':' u.data hc
    have hsome : (pySplit ':' u)[1]? = some ((pySplit ':' u)[1]) :=
      List.getElem?_eq_getElem hlen
    simp [convertStep, hu, hn, hsome]

/-- C5 witness: the resolution theorem applied to a record with display
key tank_vehicles:T34 (with the hash sign in front) and an empty
vehicleStrings table: the resolved name is T34. -/
theorem name_resolution_witness :
    ((convertStep [] sampleT34).1).name = some "T34" :=
  ((name_resolution [] sampleT34 "#tank_vehicles:T34" rfl).2 rfl
    (by decide)).trans (by decide)

/-- C6: a record whose name resolution fails contributes nothing to the
tankopedia dict — the dict equals the one built from the input list with
all failing records removed, so every other record is still processed —
and every record whose resolution succeeds is present in the dict under
its key. -/
theorem convert_skips_failed_records (tank_strs : List (String × String))
    (ts : List Tank) :
    convertPedia tank_strs ts =
      convertPedia tank_strs
        (ts.filter (fun t => (tankStep tank_strs t).isSome)) ∧
    ∀ t ∈ ts, ∀ k r, tankStep tank_strs t = some (k, r) →
      (assocGet (convertPedia tank_strs ts) k).isSome = true := by
  constructor
  · exact pedia_foldl_filter tank_strs ts []
  · intro t ht k r hs
    exact pedia_foldl_mem tank_strs t k r hs ts [] ht

/-- C6 witness: the skip theorem applied to a list holding one good
record and one record whose key has no colon: the good record's key 1 is
present in the built dict. -/
theorem convert_skips_failed_records_witness :
    (assocGet (convertPedia [] [sampleT34, sampleBad]) "1").isSome =
      true :=
  (convert_skips_failed_records [] [sampleT34, sampleBad]).2 sampleT34
    (by decide) "1" sampleT34Done (by decide)

/-- C8: for every localization input (and any behavior of the two
external regex matchers), no entry of the produced map-string table has
the value Macragge: the insertion guard of line 158 filters it before it
can enter the table. -/
theorem read_user_strs_no_macragge
    (pTank pMap : String → Option (String × String))
    (lines : List String) :
    ∀ kv ∈ (read_user_strs pTank pMap lines).2, kv.2 ≠ "Macragge" := by
  intro kv hkv
  refine readStep_foldl_inv pTank pMap lines ([], []) ?_ kv hkv
  intro kv0 hkv0
  simp at hkv0

/-- C8 witness: the Macragge-exclusion theorem applied to a one-line
input whose map matcher yields the Erlenberg entry. -/
theorem read_user_strs_no_macragge_witness :
    "Erlenberg" ≠ "Macragge" :=
  read_user_strs_no_macragge (fun _ => none)
    (fun l => if l = "maps line" then some ("erlenberg", "Erlenberg")
      else none)
    ["maps line"] ("erlenberg", "Erlenberg") (by decide)

/-- C9: in the serialized outputs, the tankopedia data keys are strictly
increasing when parsed as integers, and the userStr keys and the maps
keys are strictly increasing lexicographically — whenever the merged
dicts' keys are distinct under the respective orderings, which holds for
every dict of canonical decimal keys and for every dict at all in the
lexicographic cases built from distinct string keys. -/
theorem main_outputs_sorted {V : Type}
    (tanks new_tanks : List (String × Tank))
    (userStrs new_userStrs : List (String × String))
    (maps map_strs : List (String × V))
    (h1 : ((dictUpdate tanks new_tanks).map (fun p => pyInt p.1)).Nodup)
    (h2 : ((dictUpdate userStrs new_userStrs).map Prod.fst).Nodup)
    (h3 : ((dictUpdate maps map_strs).map Prod.fst).Nodup) :
    ((main_outputs tanks new_tanks userStrs new_userStrs maps
        map_strs).1.map (fun p => pyInt p.1)).Pairwise (· < ·) ∧
    ((main_outputs tanks new_tanks userStrs new_userStrs maps
        map_strs).2.1.map Prod.fst).Pairwise (· < ·) ∧
    ((main_outputs tanks new_tanks userStrs new_userStrs maps
        map_strs).2.2.map Prod.fst).Pairwise (· < ·) :=
  ⟨sortOn_pairwise_lt _ _ h1, sortOn_pairwise_lt _ _ h2,
   sortOn_pairwise_lt _ _ h3⟩

/-- C9 witness: the sortedness theorem applied to concrete prior and new
catalogs with distinct keys. -/
theorem main_outputs_sorted_witness :
    ((main_outputs [("2", sampleT34)] [("10", sampleBad)]
        [("b", "x")] [("a", "y")] [("m1", "z")]
        ([] : List (String × String))).1.map
      (fun p => pyInt p.1)).Pairwise (· < ·) :=
  (main_outputs_sorted [("2", sampleT34)] [("10", sampleBad)]
    [("b", "x")] [("a", "y")] [("m1", "z")] []
    (by decide) (by decide) (by decide)).1

/-- C10: convert_tank_names mutates the caller's records in place: the
post-call state of the input list (returned explicitly by the
embedding) replaces each record by its mutated form, and every record
whose resolution step succeeded has its userStr key removed and a name
key added. -/
theorem convert_tank_names_mutates (tank_strs : List (String × String))
    (ts : List Tank) (res : ConvertResult)
    (hok : convert_tank_names ts tank_strs = Except.ok res) :
    res.mutated = ts.map (tankMutate tank_strs) ∧
    ∀ t ∈ ts, (tankStep tank_strs t).isSome = true →
      (tankMutate tank_strs t).userStr = none ∧
      ((tankMutate tank_strs t).name).isSome = true := by
  constructor
  · cases hb : build_userStrs tank_strs with
    | error e => simp [convert_tank_names, hb] at hok
    | ok us =>
      simp only [convert_tank_names, hb] at hok
      have := Except.ok.inj hok
      rw [← this]
  · intro t ht hs
    simp only [tankStep, tankMutate, convertStep] at hs ⊢
    rcases hu : t.userStr with _ | u
    · simp only [hu] at hs
      simp at hs
    · simp only [hu] at hs ⊢
      rcases hg : assocGet tank_strs u with _ | txt
      · simp only [hg] at hs ⊢
        rcases hsp : (pySplit ':' u)[1]? with _ | seg
        · simp [hsp] at hs
        · simp [hsp]
      · simp only [hg] at hs ⊢
        simp

/-- C10 witness: the mutation theorem applied to a one-record list under
an empty string table: after the call the record has no userStr and a
resolved name. -/
theorem convert_tank_names_mutates_witness :
    (tankMutate [] sampleT34).userStr = none ∧
    ((tankMutate [] sampleT34).name).isSome = true :=
  (convert_tank_names_mutates [] [sampleT34]
    { tankopedia := [("1", sampleT34Done)]
      userStrs := []
      mutated := [sampleT34Done] }
    (by decide)).2 sampleT34 (by decide) (by decide)

end ExtractTankopedia
